import Mathlib

set_option maxRecDepth 20000

/-!
Shallow embedding of the Prompt-Cloner repository (src/src/App.tsx and
src/src/services/geminiService.ts) together with theorems settling the
specification claims about it.

Modelling conventions:
* JS strings are Lean `String`s; where character-level scanning matters
  (the copy-extraction regex, `split`), we work on `String.data : List Char`.
* `null`/`undefined` values are `Option`; JS string truthiness
  (`!s` is true for `null`/`undefined` and `""`) is the `truthy` test below.
* The five `useState` cells of `App` form the record `AppState`; each event
  handler becomes a function on `AppState`.  `handleAnalyze` additionally
  returns the number of calls it issued to the Analysis Client (0 or 1), and
  takes the awaited outcome of that call as a parameter
  (`Except Unit (Option String)`: a thrown error, or `response.text` which
  may be `undefined`).
* The `setTimeout` logic of `copyToClipboard` (App.tsx:65-66) is modelled by
  the discrete-time trace `copiedAt`: given the list of invocation instants
  (in milliseconds), each invocation sets the flag and schedules an
  uncancelled clear 2000 ms later.
-/

/-- The backtick character, written via its code point. -/
def btick : Char := Char.ofNat 96

/-- The three-backtick fence opener of the extraction regex in App.tsx:61. -/
def fence : List Char := [btick, btick, btick]

/-- The `\n`-plus-fence closer the lazy group of the regex stops at. -/
def nlFence : List Char := '\n' :: fence

/-- JS truthiness of a nullable string: `null`/`undefined` and `""` are falsy. -/
def truthy : Option String → Bool
  | none => false
  | some s => !(s == "")

/-- The five `useState` cells of `App` (App.tsx:19-23). -/
structure AppState where
  image : Option String
  mimeType : String
  analyzing : Bool
  result : Option String
  copied : Bool
deriving DecidableEq, Repr

/-- The initial values passed to `useState` (App.tsx:19-23). -/
def initialState : AppState :=
  { image := none, mimeType := "", analyzing := false, result := none, copied := false }

/-- A selected file: its declared media type and the data URI that
`FileReader.readAsDataURL` decodes it to (the decode itself is opaque). -/
structure JsFile where
  type : String
  dataURL : String
deriving DecidableEq, Repr

/-- Handler `handleFile` (App.tsx:26-36): reject non-image types, otherwise store the
decoded data URI and the declared type and clear any previous result. -/
def handleFile (f : JsFile) (s : AppState) : AppState :=
  if !(("image/".data).isPrefixOf f.type.data) then s
  else { s with image := some f.dataURL, mimeType := f.type, result := none }

/-- The fallback stored when the client resolves with falsy text (App.tsx:49). -/
def genFallbackMsg : String := "Não foi possível gerar o prompt."

/-- The fixed user-facing error message (App.tsx:52). -/
def genericErrorMsg : String := "Erro ao analisar imagem. Verifique sua conexão."

/-- The JS expression `promptResult || 'Não foi possível gerar o prompt.'`. -/
def orFallback : Option String → String
  | none => genFallbackMsg
  | some t => if t == "" then genFallbackMsg else t

/-- Handler `handleAnalyze` (App.tsx:44-56).  `call` is the awaited outcome of the
`analyzeImage` call; the second component counts client calls issued.
The handler guards only on `!image`; on either outcome the `finally`
clears `analyzing`. -/
def handleAnalyze (call : Except Unit (Option String)) (s : AppState) : AppState × Nat :=
  if !(truthy s.image) then (s, 0)
  else
    match call with
    | Except.ok t => ({ s with analyzing := false, result := some (orFallback t) }, 1)
    | Except.error _ => ({ s with analyzing := false, result := some genericErrorMsg }, 1)

/-- The analyze button (App.tsx:163-165): `disabled={!image || analyzing}`,
`onClick={handleAnalyze}`; a disabled button fires no click handler. -/
def analyzeButtonClick (call : Except Unit (Option String)) (s : AppState) : AppState × Nat :=
  if !(truthy s.image) || s.analyzing then (s, 0)
  else handleAnalyze call s

/-- Consume a literal pattern from the front of `r`, returning the rest. -/
def matchTag : List Char → List Char → Option (List Char)
  | [], r => some r
  | _ :: _, [] => none
  | a :: tg, b :: r => if a = b then matchTag tg r else none

/-- The lazy group `([\s\S]*?)\n``` ` of the regex: the characters before the
first occurrence of `\n``` `, or `none` if no closing fence follows. -/
def contentToClose : List Char → Option (List Char)
  | [] => none
  | c :: rest =>
    match matchTag nlFence (c :: rest) with
    | some _ => some []
    | none =>
      match contentToClose rest with
      | some g => some (c :: g)
      | none => none

def tagPrompt : List Char := ['p', 'r', 'o', 'm', 'p', 't']
def tagText : List Char := ['t', 'e', 'x', 't']
def tagMarkdown : List Char := ['m', 'a', 'r', 'k', 'd', 'o', 'w', 'n']

/-- The part of the regex after the opening fence:
`(?:prompt|text|markdown)?\n` followed by the lazy group; `r` is the text
right after the three opening backticks. -/
def afterFence (r : List Char) : Option (List Char) :=
  match matchTag (tagPrompt ++ ['\n']) r with
  | some rest => contentToClose rest
  | none =>
    match matchTag (tagText ++ ['\n']) r with
    | some rest => contentToClose rest
    | none =>
      match matchTag (tagMarkdown ++ ['\n']) r with
      | some rest => contentToClose rest
      | none =>
        match matchTag ['\n'] r with
        | some rest => contentToClose rest
        | none => none

/-- The JS expression `result.match(/```(?:prompt|text|markdown)?\n([\s\S]*?)\n```/)` at the
character level: scan left to right for the first position where the pattern
matches, returning capture group 1. -/
def findCodeMatch : List Char → Option (List Char)
  | [] => none
  | c :: rest =>
    match matchTag fence (c :: rest) with
    | some afterOpen =>
      match afterFence afterOpen with
      | some g => some g
      | none => findCodeMatch rest
    | none => findCodeMatch rest

/-- The JS expression `codeMatch ? codeMatch[1] : result` (App.tsx:62) on character lists. -/
def clipTextL (r : List Char) : List Char :=
  match findCodeMatch r with
  | some g => g
  | none => r

/-- The text `copyToClipboard` places on the clipboard for result `result`. -/
def textToCopy (result : String) : List Char :=
  clipTextL result.data

/-- Handler `copyToClipboard` (App.tsx:58-67) minus the timer: returns the new state
and the clipboard text written, if any (`if (!result) return`). -/
def copyToClipboard (s : AppState) : AppState × Option (List Char) :=
  match s.result with
  | none => (s, none)
  | some r =>
    if r == "" then (s, none)
    else ({ s with copied := true }, some (textToCopy r))

/-- A fenced block `` ```tag\ninner\n``` `` as a character list; the tag may
be empty. -/
def fencedBlock (tag inner : List Char) : List Char :=
  fence ++ tag ++ '\n' :: (inner ++ nlFence)

/-- The `copied` flag over time (App.tsx:65-66): `invs` lists the instants
(milliseconds) at which `copyToClipboard` ran with a truthy result.  Each
invocation sets the flag; each also scheduled `setCopied(false)` 2000 ms
later, and no timer is ever cancelled.  Initially the flag is false. -/
def copiedAt (invs : List Nat) : Nat → Bool
  | 0 => decide (0 ∈ invs)
  | t + 1 =>
    if (t + 1) ∈ invs then true
    else if invs.any (fun x => x + 2000 == t + 1) = true then false
    else copiedAt invs t

/-- JS `String.prototype.split` with a one-character separator, accumulator
form: splitting `""` yields `[""]`, separators at the ends yield empty
fields. -/
def jsSplitAux (sep : Char) : List Char → List Char → List (List Char)
  | [], acc => [acc.reverse]
  | c :: rest, acc =>
    if c = sep then acc.reverse :: jsSplitAux sep rest []
    else jsSplitAux sep rest (c :: acc)

/-- JS `s.split(sep)` for a one-character separator. -/
def jsSplit (sep : Char) (s : List Char) : List (List Char) :=
  jsSplitAux sep s []

/-- The JS expression `base64Image.split(',')[1]` (geminiService.ts:27): the second
comma-separated field, or `none` (JS `undefined`) when there is none. -/
def inlineDataOf (base64Image : String) : Option (List Char) :=
  (jsSplit ',' base64Image.data).get? 1

/-- The fixed instruction template (geminiService.ts:6-21). -/
def promptTemplate : String :=
  "Analise esta imagem detalhadamente para criar um \"prompt de clonagem\" perfeito. \n  Sua tarefa é descrever cada aspecto técnico e visual para que outra IA possa recriar esta imagem com precisão máxima.\n  \n  O resultado deve ser estruturado da seguinte forma:\n  \n  ### 🚀 Prompt de Clonagem (Inglês)\n  [Um prompt altamente detalhado em inglês, otimizado para Midjourney, Stable Diffusion ou DALL-E 3]\n  \n  ### 🔍 Análise de Detalhes (Português)\n  - **Sujeito:** Detalhes físicos, expressão, pose.\n  - **Estilo:** Técnica artística ou fotográfica.\n  - **Iluminação:** Atmosfera e fontes de luz.\n  - **Composição:** Enquadramento e profundidade.\n  - **Cores:** Paleta e saturação.\n  \n  Seja extremamente específico. Se houver um rosto, descreva traços únicos. Se houver um corpo, descreva a anatomia e vestimenta."

/-- The single multimodal request `analyzeImage` sends
(geminiService.ts:23-31): model name, inline image part, and prompt part. -/
structure GenRequest where
  model : String
  inlineMimeType : String
  inlineData : Option (List Char)
  promptText : String
deriving DecidableEq

/-- The service response; `text` may be missing (JS `undefined`). -/
structure GenResponse where
  text : Option String
deriving DecidableEq

/-- The request `analyzeImage` builds for a given `base64Image`/`mimeType`. -/
def requestOf (base64Image mimeType : String) : GenRequest :=
  { model := "gemini-3-flash-preview"
    inlineMimeType := mimeType
    inlineData := inlineDataOf base64Image
    promptText := promptTemplate }

/-- The function `analyzeImage` (geminiService.ts:3-34).  `service` abstracts the
constructed `GoogleGenAI` client's `models.generateContent`: it either
throws (`Except.error`) or resolves to a response.  The function returns
`response.text` verbatim, with no emptiness check. -/
def analyzeImage (service : GenRequest → Except Unit GenResponse)
    (base64Image mimeType : String) : Except Unit (Option String) :=
  match service (requestOf base64Image mimeType) with
  | Except.error e => Except.error e
  | Except.ok r => Except.ok r.text

/-- A second definition following the words of claim C9 (not the source):
"the substring of base64Image after the first comma", and missing when the
input contains no comma. -/
def claimedInlineData (s : List Char) : Option (List Char) :=
  if ',' ∈ s then some ((s.dropWhile (fun c => !(c == ','))).drop 1)
  else none

/-! ## Concrete states used by counterexamples and witnesses -/

/-- A state with an image loaded and an analysis already in flight. -/
def analyzingState : AppState :=
  { image := some "data:image/png;base64,iVBORw0KGgo=", mimeType := "image/png",
    analyzing := true, result := none, copied := false }

/-- A state with an image loaded, idle, no result yet. -/
def readyState : AppState :=
  { image := some "data:image/png;base64,iVBORw0KGgo=", mimeType := "image/png",
    analyzing := false, result := none, copied := false }

/-! ## Claim theorems -/

/-- C6: for every file whose declared media type does not start with
"image/", `handleFile` leaves the entire UI state unchanged
(App.tsx:27 returns before any setter runs). -/
theorem C6_nonimage_noop (f : JsFile) (s : AppState)
    (h : ("image/".data).isPrefixOf f.type.data = false) :
    handleFile f s = s := by
  simp [handleFile, h]

theorem C6_nonimage_noop_witness :
    handleFile { type := "text/plain", dataURL := "data:text/plain;base64,aGk=" }
      initialState = initialState :=
  C6_nonimage_noop _ _ (by decide)

/-- C7: for every file whose declared media type starts with "image/", after
the decode completes `handleFile` stores the file's declared type as the
mimeType, stores the decoded data URI as the image, and clears any previous
result (App.tsx:30-34). -/
theorem C7_image_stored (f : JsFile) (s : AppState)
    (h : ("image/".data).isPrefixOf f.type.data = true) :
    (handleFile f s).mimeType = f.type ∧
    (handleFile f s).image = some f.dataURL ∧
    (handleFile f s).result = none := by
  simp [handleFile, h]

theorem C7_image_stored_witness :
    (handleFile { type := "image/png", dataURL := "data:image/png;base64,iVBORw0KGgo=" }
        { readyState with result := some "old result" }).mimeType = "image/png" ∧
    (handleFile { type := "image/png", dataURL := "data:image/png;base64,iVBORw0KGgo=" }
        { readyState with result := some "old result" }).image =
      some "data:image/png;base64,iVBORw0KGgo=" ∧
    (handleFile { type := "image/png", dataURL := "data:image/png;base64,iVBORw0KGgo=" }
        { readyState with result := some "old result" }).result = none :=
  C7_image_stored _ _ (by decide)

/-- C1 counterexample: in a state with an image loaded and the Analyzing flag
already true, invoking `handleAnalyze` does issue a call to the Analysis
Client (the call count is 1, not 0) and does change the state — the handler
(App.tsx:45) guards only on `!image`, not on `analyzing`. -/
theorem C1_counterexample :
    (handleAnalyze (Except.ok (some "T")) analyzingState).2 = 1 ∧
    (handleAnalyze (Except.ok (some "T")) analyzingState).1 ≠ analyzingState := by
  decide

/-- C1 amended: `handleAnalyze` itself is a no-op that issues no client call
whenever no image is loaded (null or empty); the guard against an analysis
already in flight is enforced not by `handleAnalyze` but by the analyze
button's `disabled={!image || analyzing}` attribute (App.tsx:164), so a
button click in either situation leaves the state unchanged and issues no
call. -/
theorem C1_amended (call : Except Unit (Option String)) (s : AppState) :
    (truthy s.image = false → handleAnalyze call s = (s, 0)) ∧
    (truthy s.image = false ∨ s.analyzing = true → analyzeButtonClick call s = (s, 0)) := by
  constructor
  · intro h
    simp [handleAnalyze, h]
  · intro h
    rcases h with h | h <;> simp [analyzeButtonClick, h]

theorem C1_amended_witness :
    handleAnalyze (Except.ok (some "T")) initialState = (initialState, 0) ∧
    analyzeButtonClick (Except.ok (some "T")) analyzingState = (analyzingState, 0) :=
  ⟨(C1_amended (Except.ok (some "T")) initialState).1 (by decide),
   (C1_amended (Except.ok (some "T")) analyzingState).2 (Or.inr (by decide))⟩

/-- C2 counterexample: when the Analysis Client call succeeds with the empty
text `""`, the stored result is the fixed fallback message, not the returned
text — `promptResult || '...'` (App.tsx:49) treats `""` as falsy. -/
theorem C2_counterexample :
    (handleAnalyze (Except.ok (some "")) readyState).1.result = some genFallbackMsg ∧
    genFallbackMsg ≠ "" := by
  decide

/-- C2 amended: for every NON-EMPTY text returned by a successful Analysis
Client call, `handleAnalyze` ends with the result equal to that text exactly
and the Analyzing flag false; an empty or missing text is replaced by the
fixed fallback message. -/
theorem C2_amended (t : String) (s : AppState)
    (himg : truthy s.image = true) (ht : t ≠ "") :
    handleAnalyze (Except.ok (some t)) s =
      ({ s with analyzing := false, result := some t }, 1) := by
  have hb : (t == "") = false := by
    simpa using ht
  simp [handleAnalyze, himg, orFallback, hb]

theorem C2_amended_witness :
    handleAnalyze (Except.ok (some "### Prompt")) readyState =
      ({ readyState with analyzing := false, result := some "### Prompt" }, 1) :=
  C2_amended "### Prompt" readyState (by decide) (by decide)

/-- C5: every error raised by the Analysis Client call is caught — the
handler is a total function on states — and `handleAnalyze` ends with the
result set to the one fixed, non-empty generic error message and the
Analyzing flag false (App.tsx:50-55). -/
theorem C5_error_to_failed (s : AppState) (himg : truthy s.image = true) :
    handleAnalyze (Except.error ()) s =
      ({ s with analyzing := false, result := some genericErrorMsg }, 1) ∧
    genericErrorMsg ≠ "" := by
  refine ⟨?_, by decide⟩
  simp [handleAnalyze, himg]

theorem C5_error_to_failed_witness :
    handleAnalyze (Except.error ()) readyState =
      ({ readyState with analyzing := false, result := some genericErrorMsg }, 1) ∧
    genericErrorMsg ≠ "" :=
  C5_error_to_failed readyState (by decide)

/-- C3 counterexample: a service response whose generated text is the empty
string is returned by `analyzeImage` as a successful result (`Except.ok`),
not propagated as an error — geminiService.ts:33 returns `response.text`
with no emptiness check. -/
theorem C3_counterexample :
    analyzeImage (fun _ => Except.ok { text := some "" })
      "data:image/png;base64,iVBORw0KGgo=" "image/png" = Except.ok (some "") := by
  rfl

/-- C3 amended: for every service response whose generated text is empty or
missing, `analyzeImage` returns that text verbatim as a successful result
(it propagates only thrown errors); it is the caller `handleAnalyze` that
replaces the empty/missing text with the fixed fallback message. -/
theorem C3_amended (base64Image mimeType : String) (t : Option String) (s : AppState)
    (ht : t = none ∨ t = some "") (himg : truthy s.image = true) :
    analyzeImage (fun _ => Except.ok { text := t }) base64Image mimeType = Except.ok t ∧
    (handleAnalyze (Except.ok t) s).1.result = some genFallbackMsg := by
  refine ⟨rfl, ?_⟩
  rcases ht with h | h <;> subst h <;> simp [handleAnalyze, himg, orFallback]

theorem C3_amended_witness :
    analyzeImage (fun _ => Except.ok { text := none })
      "data:image/png;base64,iVBORw0KGgo=" "image/png" = Except.ok none ∧
    (handleAnalyze (Except.ok none) readyState).1.result = some genFallbackMsg :=
  C3_amended "data:image/png;base64,iVBORw0KGgo=" "image/png" none readyState
    (Or.inl rfl) (by decide)

/-! ## Lemmas about the copy-extraction scanner -/

theorem matchTag_append (tg : List Char) :
    ∀ rest : List Char, matchTag tg (tg ++ rest) = some rest := by
  induction tg with
  | nil => intro rest; rfl
  | cons a tg' ih => intro rest; simp [matchTag, ih]

theorem matchTag_ne (a b : Char) (tg r : List Char) (h : a ≠ b) :
    matchTag (a :: tg) (b :: r) = none := by
  simp [matchTag, h]

theorem matchTag_nlFence_cons (rest : List Char) :
    matchTag nlFence ('\n' :: (fence ++ rest)) = some rest := by
  show matchTag ('\n' :: fence) ('\n' :: (fence ++ rest)) = some rest
  simp [matchTag, matchTag_append]

theorem matchTag_fence_ne (c : Char) (r : List Char) (h : c ≠ btick) :
    matchTag fence (c :: r) = none :=
  matchTag_ne btick c _ _ (fun hb => h hb.symm)

theorem matchTag_nlFence_ne (c : Char) (r : List Char) (h : c ≠ '\n') :
    matchTag nlFence (c :: r) = none :=
  matchTag_ne '\n' c _ _ (fun hb => h hb.symm)

theorem matchTag_cons_eq (a : Char) (tg r : List Char) :
    matchTag (a :: tg) (a :: r) = matchTag tg r := by
  simp [matchTag]

theorem contentToClose_cons (c : Char) (rest : List Char) :
    contentToClose (c :: rest) =
      match matchTag nlFence (c :: rest) with
      | some _ => some []
      | none =>
        match contentToClose rest with
        | some g => some (c :: g)
        | none => none := rfl

/-- The lazy group stops exactly at an appended `\n``` ` when the content
contains no backtick. -/
theorem contentToClose_append (inner : List Char) :
    ∀ rest : List Char, btick ∉ inner →
      contentToClose (inner ++ (nlFence ++ rest)) = some inner := by
  induction inner with
  | nil =>
    intro rest _
    show contentToClose ('\n' :: (fence ++ rest)) = some []
    rw [contentToClose_cons, matchTag_nlFence_cons]
  | cons c inner' ih =>
    intro rest hmem
    have hrec : contentToClose (inner' ++ (nlFence ++ rest)) = some inner' :=
      ih rest (fun h => hmem (List.mem_cons_of_mem _ h))
    show contentToClose (c :: (inner' ++ (nlFence ++ rest))) = some (c :: inner')
    rw [contentToClose_cons]
    have hopen : matchTag nlFence (c :: (inner' ++ (nlFence ++ rest))) = none := by
      by_cases hnl : c = '\n'
      · subst hnl
        show matchTag ('\n' :: fence) ('\n' :: (inner' ++ (nlFence ++ rest))) = none
        rw [matchTag_cons_eq]
        cases inner' with
        | nil =>
          show matchTag fence ('\n' :: (fence ++ rest)) = none
          exact matchTag_fence_ne '\n' _ (by decide)
        | cons d inner'' =>
          have hd : d ≠ btick := fun h => hmem (by simp [h])
          exact matchTag_fence_ne d _ hd
      · exact matchTag_nlFence_ne c _ hnl
    rw [hopen]
    show (match contentToClose (inner' ++ (nlFence ++ rest)) with
          | some g => some (c :: g)
          | none => none) = some (c :: inner')
    rw [hrec]

/-- Scanning skips over any backtick-free left context. -/
theorem findCodeMatch_skip (pre : List Char) :
    ∀ rest : List Char, btick ∉ pre →
      findCodeMatch (pre ++ rest) = findCodeMatch rest := by
  induction pre with
  | nil => intro rest _; rfl
  | cons c pre' ih =>
    intro rest hmem
    have hc : c ≠ btick := fun h => hmem (by simp [h])
    show findCodeMatch (c :: (pre' ++ rest)) = findCodeMatch rest
    simp only [findCodeMatch, matchTag_fence_ne c _ hc]
    exact ih rest (fun h => hmem (List.mem_cons_of_mem _ h))

/-- If the rest of the pattern matches right after an opening fence, the scan
succeeds there with that capture. -/
theorem findCodeMatch_open_some (x g : List Char) (h : afterFence x = some g) :
    findCodeMatch (fence ++ x) = some g := by
  show findCodeMatch (btick :: btick :: btick :: x) = some g
  simp only [findCodeMatch]
  rw [show matchTag fence (btick :: btick :: btick :: x) = some x from matchTag_append fence x]
  show (match afterFence x with
        | some g' => some g'
        | none => findCodeMatch (btick :: btick :: x)) = some g
  rw [h]

theorem afterFence_prompt (inner rest : List Char) (hin : btick ∉ inner) :
    afterFence (tagPrompt ++ '\n' :: (inner ++ (nlFence ++ rest))) = some inner := by
  show afterFence ((tagPrompt ++ ['\n']) ++ (inner ++ (nlFence ++ rest))) = some inner
  simp only [afterFence]
  rw [show matchTag (tagPrompt ++ ['\n']) ((tagPrompt ++ ['\n']) ++ (inner ++ (nlFence ++ rest)))
        = some (inner ++ (nlFence ++ rest)) from matchTag_append _ _]
  exact contentToClose_append inner rest hin

theorem afterFence_text (inner rest : List Char) (hin : btick ∉ inner) :
    afterFence (tagText ++ '\n' :: (inner ++ (nlFence ++ rest))) = some inner := by
  show afterFence ((tagText ++ ['\n']) ++ (inner ++ (nlFence ++ rest))) = some inner
  simp only [afterFence]
  rw [show matchTag (tagPrompt ++ ['\n']) ((tagText ++ ['\n']) ++ (inner ++ (nlFence ++ rest)))
        = none from matchTag_ne 'p' 't' _ _ (by decide)]
  rw [show matchTag (tagText ++ ['\n']) ((tagText ++ ['\n']) ++ (inner ++ (nlFence ++ rest)))
        = some (inner ++ (nlFence ++ rest)) from matchTag_append _ _]
  exact contentToClose_append inner rest hin

theorem afterFence_markdown (inner rest : List Char) (hin : btick ∉ inner) :
    afterFence (tagMarkdown ++ '\n' :: (inner ++ (nlFence ++ rest))) = some inner := by
  show afterFence ((tagMarkdown ++ ['\n']) ++ (inner ++ (nlFence ++ rest))) = some inner
  simp only [afterFence]
  rw [show matchTag (tagPrompt ++ ['\n']) ((tagMarkdown ++ ['\n']) ++ (inner ++ (nlFence ++ rest)))
        = none from matchTag_ne 'p' 'm' _ _ (by decide)]
  rw [show matchTag (tagText ++ ['\n']) ((tagMarkdown ++ ['\n']) ++ (inner ++ (nlFence ++ rest)))
        = none from matchTag_ne 't' 'm' _ _ (by decide)]
  rw [show matchTag (tagMarkdown ++ ['\n']) ((tagMarkdown ++ ['\n']) ++ (inner ++ (nlFence ++ rest)))
        = some (inner ++ (nlFence ++ rest)) from matchTag_append _ _]
  exact contentToClose_append inner rest hin

theorem afterFence_untagged (inner rest : List Char) (hin : btick ∉ inner) :
    afterFence ('\n' :: (inner ++ (nlFence ++ rest))) = some inner := by
  simp only [afterFence]
  rw [show matchTag (tagPrompt ++ ['\n']) ('\n' :: (inner ++ (nlFence ++ rest)))
        = none from matchTag_ne 'p' '\n' _ _ (by decide)]
  rw [show matchTag (tagText ++ ['\n']) ('\n' :: (inner ++ (nlFence ++ rest)))
        = none from matchTag_ne 't' '\n' _ _ (by decide)]
  rw [show matchTag (tagMarkdown ++ ['\n']) ('\n' :: (inner ++ (nlFence ++ rest)))
        = none from matchTag_ne 'm' '\n' _ _ (by decide)]
  rw [show matchTag ['\n'] ('\n' :: (inner ++ (nlFence ++ rest)))
        = some (inner ++ (nlFence ++ rest)) from matchTag_append ['\n'] _]
  exact contentToClose_append inner rest hin

theorem findCodeMatch_block_prompt (inner rest : List Char) (hin : btick ∉ inner) :
    findCodeMatch (fencedBlock tagPrompt inner ++ rest) = some inner := by
  show findCodeMatch (fence ++ ((tagPrompt ++ '\n' :: (inner ++ nlFence)) ++ rest)) = some inner
  have harg : (tagPrompt ++ '\n' :: (inner ++ nlFence)) ++ rest
      = tagPrompt ++ '\n' :: (inner ++ (nlFence ++ rest)) := by
    simp [List.append_assoc]
  rw [harg]
  exact findCodeMatch_open_some _ _ (afterFence_prompt inner rest hin)

theorem findCodeMatch_block_text (inner rest : List Char) (hin : btick ∉ inner) :
    findCodeMatch (fencedBlock tagText inner ++ rest) = some inner := by
  show findCodeMatch (fence ++ ((tagText ++ '\n' :: (inner ++ nlFence)) ++ rest)) = some inner
  have harg : (tagText ++ '\n' :: (inner ++ nlFence)) ++ rest
      = tagText ++ '\n' :: (inner ++ (nlFence ++ rest)) := by
    simp [List.append_assoc]
  rw [harg]
  exact findCodeMatch_open_some _ _ (afterFence_text inner rest hin)

theorem findCodeMatch_block_markdown (inner rest : List Char) (hin : btick ∉ inner) :
    findCodeMatch (fencedBlock tagMarkdown inner ++ rest) = some inner := by
  show findCodeMatch (fence ++ ((tagMarkdown ++ '\n' :: (inner ++ nlFence)) ++ rest)) = some inner
  have harg : (tagMarkdown ++ '\n' :: (inner ++ nlFence)) ++ rest
      = tagMarkdown ++ '\n' :: (inner ++ (nlFence ++ rest)) := by
    simp [List.append_assoc]
  rw [harg]
  exact findCodeMatch_open_some _ _ (afterFence_markdown inner rest hin)

theorem findCodeMatch_block_untagged (inner rest : List Char) (hin : btick ∉ inner) :
    findCodeMatch (fencedBlock [] inner ++ rest) = some inner := by
  show findCodeMatch (fence ++ (('\n' :: (inner ++ nlFence)) ++ rest)) = some inner
  have harg : ('\n' :: (inner ++ nlFence)) ++ rest
      = '\n' :: (inner ++ (nlFence ++ rest)) := by
    simp [List.append_assoc]
  rw [harg]
  exact findCodeMatch_open_some _ _ (afterFence_untagged inner rest hin)

/-- C4 counterexample: the result `"```\nabc\n```"` contains no fenced block
tagged `prompt`, `text`, or `markdown` — the letters `p`, `t`, `m` do not
even occur in it, so none of those tag words does — yet the clipboard text
is the inner content `"abc"`, not the full result: the tag group of the
regex (App.tsx:61) is optional, so untagged fences are extracted too. -/
theorem C4_counterexample :
    clipTextL ("```\nabc\n```".data) = "abc".data ∧
    "abc".data ≠ "```\nabc\n```".data ∧
    'p' ∉ "```\nabc\n```".data ∧
    't' ∉ "```\nabc\n```".data ∧
    'm' ∉ "```\nabc\n```".data := by
  decide

/-- C4 amended: the clipboard text is the inner content of the first fenced
code block whose opening fence is ``` followed by `prompt`, `text`,
`markdown`, OR NO TAG AT ALL (the tag is optional in the regex), then a
newline — shown here for backtick-free inner content; when the scan finds no
such block, the full result text is copied unmodified. -/
theorem C4_amended :
    (∀ inner : List Char, btick ∉ inner →
      clipTextL (fencedBlock tagPrompt inner) = inner ∧
      clipTextL (fencedBlock tagText inner) = inner ∧
      clipTextL (fencedBlock tagMarkdown inner) = inner ∧
      clipTextL (fencedBlock [] inner) = inner) ∧
    (∀ r : List Char, findCodeMatch r = none → clipTextL r = r) := by
  constructor
  · intro inner hin
    refine ⟨?_, ?_, ?_, ?_⟩ <;>
      · unfold clipTextL
        rw [← List.append_nil (fencedBlock _ inner)]
        first
        | rw [findCodeMatch_block_prompt inner [] hin]
        | rw [findCodeMatch_block_text inner [] hin]
        | rw [findCodeMatch_block_markdown inner [] hin]
        | rw [findCodeMatch_block_untagged inner [] hin]
  · intro r h
    unfold clipTextL
    rw [h]

theorem C4_amended_witness :
    clipTextL (fencedBlock tagPrompt ("cat on a chair".data)) = "cat on a chair".data ∧
    clipTextL ("no fenced block here".data) = "no fenced block here".data :=
  ⟨(C4_amended.1 ("cat on a chair".data) (by decide)).1,
   C4_amended.2 ("no fenced block here".data) (by decide)⟩

/-- C10: with more than one matching fenced block in the result, the
clipboard gets the inner content of the first (leftmost) matching block
only — whatever follows that block, including further matching blocks, never
influences the extracted text. -/
theorem C10_first_block (pre inner1 mid inner2 : List Char)
    (hpre : btick ∉ pre) (h1 : btick ∉ inner1) :
    clipTextL (pre ++ (fencedBlock tagPrompt inner1 ++
      (mid ++ fencedBlock tagText inner2))) = inner1 := by
  unfold clipTextL
  rw [findCodeMatch_skip pre _ hpre]
  rw [findCodeMatch_block_prompt inner1 _ h1]

theorem C10_first_block_witness :
    clipTextL ("Result:\n".data ++ (fencedBlock tagPrompt ("cat".data) ++
      ("\nand\n".data ++ fencedBlock tagText ("dog".data)))) = "cat".data :=
  C10_first_block ("Result:\n".data) ("cat".data) ("\nand\n".data) ("dog".data)
    (by decide) (by decide)

/-! ## Lemmas about jsSplit -/

theorem jsSplitAux_no_sep (sep : Char) (s : List Char) :
    ∀ acc : List Char, sep ∉ s → jsSplitAux sep s acc = [acc.reverse ++ s] := by
  induction s with
  | nil => intro acc _; simp [jsSplitAux]
  | cons c rest ih =>
    intro acc h
    have hc : ¬ (c = sep) := fun hc => h (by simp [hc])
    rw [jsSplitAux, if_neg hc]
    rw [ih (c :: acc) (fun hm => h (List.mem_cons_of_mem _ hm))]
    simp

theorem jsSplitAux_sep_append (sep : Char) (a : List Char) :
    ∀ (acc rest : List Char), sep ∉ a →
      jsSplitAux sep (a ++ sep :: rest) acc =
        (acc.reverse ++ a) :: jsSplitAux sep rest [] := by
  induction a with
  | nil =>
    intro acc rest _
    show jsSplitAux sep (sep :: rest) acc = (acc.reverse ++ []) :: jsSplitAux sep rest []
    rw [jsSplitAux, if_pos rfl]
    simp
  | cons c a' ih =>
    intro acc rest h
    have hc : ¬ (c = sep) := fun hc => h (by simp [hc])
    show jsSplitAux sep (c :: (a' ++ sep :: rest)) acc = _
    rw [jsSplitAux, if_neg hc]
    rw [ih (c :: acc) rest (fun hm => h (List.mem_cons_of_mem _ hm))]
    simp

theorem jsSplitAux_get0 (sep : Char) (r : List Char) :
    ∀ acc : List Char,
      (jsSplitAux sep r acc).get? 0 =
        some (acc.reverse ++ r.takeWhile (fun c => !(c == sep))) := by
  induction r with
  | nil => intro acc; simp [jsSplitAux]
  | cons c r' ih =>
    intro acc
    by_cases hc : c = sep
    · subst hc
      rw [jsSplitAux, if_pos rfl]
      simp [List.takeWhile_cons]
    · rw [jsSplitAux, if_neg hc]
      rw [ih (c :: acc)]
      have hb : (c == sep) = false := by simpa using hc
      simp [List.takeWhile_cons, hb]

/-! ## C9: the inline data actually sent -/

/-- C9 counterexample: for the input `"a,b,c"`, the data field sent by
`analyzeImage` is `"b"` — the field BETWEEN the first and second commas —
while the substring after the first comma (what the claim predicts) is
`"b,c"`. -/
theorem C9_counterexample :
    (requestOf "a,b,c" "image/png").inlineData = some ['b'] ∧
    claimedInlineData ("a,b,c".data) = some ("b,c".data) ∧
    (requestOf "a,b,c" "image/png").inlineData ≠ claimedInlineData ("a,b,c".data) := by
  decide

/-- C9 amended: the inline data sent by `analyzeImage` is the SECOND
comma-separated field of `base64Image` — the characters strictly between the
first comma and the next comma (or the end) — and for any input containing
no comma the data field is missing (`undefined`). -/
theorem C9_amended (b mimeType : String) :
    (',' ∉ b.data → (requestOf b mimeType).inlineData = none) ∧
    (∀ a r : List Char, b.data = a ++ ',' :: r → ',' ∉ a →
      (requestOf b mimeType).inlineData =
        some (r.takeWhile (fun c => !(c == ',')))) := by
  constructor
  · intro h
    show inlineDataOf b = none
    unfold inlineDataOf jsSplit
    rw [jsSplitAux_no_sep ',' b.data [] h]
    rfl
  · intro a r hb ha
    show inlineDataOf b = _
    unfold inlineDataOf jsSplit
    rw [hb, jsSplitAux_sep_append ',' a [] r ha]
    rw [List.get?_cons_succ]
    rw [jsSplitAux_get0]
    simp

theorem C9_amended_witness :
    (requestOf "data:image/png;base64,iVBORw0KGgo=" "image/png").inlineData =
      some ("iVBORw0KGgo=".data) := by
  have h := (C9_amended "data:image/png;base64,iVBORw0KGgo=" "image/png").2
    ("data:image/png;base64".data) ("iVBORw0KGgo=".data) (by decide) (by decide)
  rw [h]
  decide

/-! ## C8: the copied indicator over time -/

/-- Once two seconds have passed since every invocation, all scheduled
clears have fired and no later invocation exists, so the flag is false. -/
theorem copiedAt_all_fired (invs : List Nat) :
    ∀ t : Nat, (∀ tj ∈ invs, tj + 2000 ≤ t) → copiedAt invs t = false := by
  intro t
  induction t with
  | zero =>
    intro h
    have h0 : 0 ∉ invs := fun hm => by have := h 0 hm; omega
    simp [copiedAt, h0]
  | succ n ih =>
    intro h
    have hmem : (n + 1) ∉ invs := fun hm => by have := h _ hm; omega
    have hstep : copiedAt invs (n + 1) =
        if (n + 1) ∈ invs then true
        else if (invs.any fun x => x + 2000 == n + 1) = true then false
        else copiedAt invs n := rfl
    by_cases hf : (invs.any fun x => x + 2000 == n + 1) = true
    · rw [hstep, if_neg hmem, if_pos hf]
    · have hprev : ∀ tj ∈ invs, tj + 2000 ≤ n := by
        intro tj htj
        have h1 := h tj htj
        have h2 : ¬ (tj + 2000 = n + 1) := by
          intro hc
          exact hf (List.any_eq_true.mpr ⟨tj, htj, by simp [hc]⟩)
        omega
      rw [hstep, if_neg hmem, if_neg hf]
      exact ih hprev

/-- C8: for every list of instants at which `copyResult` ran with a result
present, each invocation sets the copied indicator true at that instant, and
at any time two seconds or more past every invocation the indicator is false
again — however many invocations fell inside the window, since every
invocation's own uncancelled 2-second timer has then fired and set it
false. -/
theorem C8_copied_indicator (invs : List Nat) (t ti : Nat) :
    (ti ∈ invs → copiedAt invs ti = true) ∧
    ((∀ tj ∈ invs, tj + 2000 ≤ t) → copiedAt invs t = false) := by
  constructor
  · intro h
    cases ti with
    | zero => simp [copiedAt, h]
    | succ n => simp [copiedAt, h]
  · exact copiedAt_all_fired invs t

theorem C8_copied_indicator_witness :
    copiedAt [0, 100] 100 = true ∧ copiedAt [0, 100] 2100 = false :=
  ⟨(C8_copied_indicator [0, 100] 2100 100).1 (by decide),
   (C8_copied_indicator [0, 100] 2100 100).2 (by decide)⟩

